import Mathlib

/-!
Verification development for the P2PChat tracker (src/server/tracker.py and
src/client/network/tracker_protocol.py), as a shallow embedding in Lean 4.

Python dictionaries are modelled as insertion-ordered association lists
(assignment to an existing key replaces the value in place, assignment to a
fresh key appends at the end, del removes the key).  Machine time
(time.time()) is passed in explicitly as an integer parameter; message
timestamps are the fixed-width strings produced by
datetime.now().strftime, compared lexicographically exactly as Python
compares str values.  Every handler is a pure function from a store and a
request to a response and a new store, mirroring the body of the
corresponding Tracker method executed under self.lock.
-/

namespace P2PChat

/-- Lookup in a Python dict modelled as an association list. -/
def dictGet {α : Type} (d : List (String × α)) (k : String) : Option α :=
  match d with
  | [] => none
  | (k0, v) :: rest => if k0 = k then some v else dictGet rest k

/-- Assignment d[k] = v on a Python dict: replace in place if the key is
present, append at the end otherwise. -/
def dictInsert {α : Type} (k : String) (v : α) : List (String × α) → List (String × α)
  | [] => [(k, v)]
  | (k0, v0) :: rest => if k0 = k then (k, v) :: rest else (k0, v0) :: dictInsert k v rest

/-- Deletion del d[k] on a Python dict: remove the entry carrying the key. -/
def dictErase {α : Type} (k : String) : List (String × α) → List (String × α)
  | [] => []
  | (k0, v0) :: rest => if k0 = k then rest else (k0, v0) :: dictErase k rest

/-- One chat message as stored in a channel's messages list. -/
structure Message where
  id : Nat
  username : String
  content : String
  timestamp : String
  deriving DecidableEq, Repr

/-- Access-control dictionary of a channel. -/
structure AccessControl where
  visitors_allowed : Bool
  deriving DecidableEq, Repr

/-- One channel record of tracker.channels. -/
structure Channel where
  name : String
  owner : String
  messages : List Message
  access_control : AccessControl
  deriving DecidableEq, Repr

/-- One user record of tracker.users. -/
structure UserInfo where
  password : String
  status : String
  deriving DecidableEq, Repr

/-- One peer record of tracker.peers. -/
structure PeerInfo where
  ip : String
  port : Nat
  username : String
  session_id : String
  status : String
  last_seen : Int
  deriving DecidableEq, Repr

/-- The tracker's shared mutable state (the three dictionaries guarded by
self.lock). -/
structure Store where
  peers : List (String × PeerInfo)
  channels : List (String × Channel)
  users : List (String × UserInfo)
  deriving DecidableEq, Repr

/-- The seed users and channels installed by Tracker.__init__. -/
def initialStore : Store :=
  { peers := []
    channels :=
      [ ("general", { name := "General", owner := "admin", messages := [],
                      access_control := { visitors_allowed := true } }),
        ("random", { name := "Random", owner := "admin", messages := [],
                     access_control := { visitors_allowed := true } }) ]
    users :=
      [ ("admin", { password := "admin123", status := "offline" }),
        ("user1", { password := "user123", status := "offline" }),
        ("user2", { password := "user123", status := "offline" }) ] }

/-- Structured responses sent back by the handlers (the JSON dictionaries
built in tracker.py, keyed by which handler produced them; err covers every
response whose status field is the string error). -/
inductive Resp where
  | ok (message : String)
  | submitOk (peer_id message : String)
  | authOk (username session_id message : String)
  | addOk (message_id : Nat) (message : String)
  | syncOk (channel_id : String) (channel_data : Channel) (message : String)
  | err (message : String)
  deriving DecidableEq, Repr

/-- Peer id string built in handle_submit_info:
username_ip_port_inttime. -/
def genPeerId (username ip : String) (port : Nat) (t : Int) : String :=
  username ++ "_" ++ ip ++ "_" ++ toString port ++ "_" ++ toString t

/-- Request payload of submit_info. -/
structure SubmitInfoRequest where
  port : Nat
  username : String
  session_id : String
  status : String
  deriving Repr

/-- Tracker.handle_submit_info: generate a peer id from username, address
and the current integer time, then store the record under that id. -/
def handle_submit_info (st : Store) (req : SubmitInfoRequest) (ip : String) (t : Int) :
    Resp × Store :=
  let peer_id := genPeerId req.username ip req.port t
  let rec0 : PeerInfo :=
    { ip := ip, port := req.port, username := req.username,
      session_id := req.session_id, status := req.status, last_seen := t }
  (Resp.submitOk peer_id "Peer information submitted successfully",
   { st with peers := dictInsert peer_id rec0 st.peers })

/-- Session id string built in handle_authenticate on success:
session_username_inttime. -/
def sessionToken (username : String) (t : Int) : String :=
  "session_" ++ username ++ "_" ++ toString t

/-- Tracker.handle_authenticate: on exact username and password match, set
the user's status to online and return a session id derived from the
current integer time; otherwise return the error response unchanged. -/
def handle_authenticate (st : Store) (username password : String) (t : Int) :
    Resp × Store :=
  match dictGet st.users username with
  | some u =>
    if u.password = password then
      (Resp.authOk username (sessionToken username t) "Authentication successful",
       { st with users := dictInsert username { u with status := "online" } st.users })
    else
      (Resp.err "Invalid username or password", st)
  | none => (Resp.err "Invalid username or password", st)

/-- Request payload of add_message (the message field is the content). -/
structure AddMessageRequest where
  channel_id : String
  username : String
  message : String
  visitor_mode : Bool
  deriving Repr

/-- Tracker.handle_add_message: unknown channel is rejected first; then a
visitor-mode request is rejected; otherwise a message with id
len(messages)+1 and the current formatted time is appended. -/
def handle_add_message (st : Store) (req : AddMessageRequest) (now : String) :
    Resp × Store :=
  match dictGet st.channels req.channel_id with
  | some ch =>
    if req.visitor_mode then
      (Resp.err "Visitors are not allowed to add messages", st)
    else
      let msg : Message :=
        { id := ch.messages.length + 1, username := req.username,
          content := req.message, timestamp := now }
      (Resp.addOk msg.id "Message added successfully",
       { st with channels :=
           dictInsert req.channel_id { ch with messages := ch.messages ++ [msg] } st.channels })
  | none => (Resp.err "Channel not found", st)

/-- Second loop of the merge in handle_sync_channel: keep each client
message whose id has not been seen, recording every kept id. -/
def mergeClient (ids : List Nat) : List Message → List Message
  | [] => []
  | m :: rest =>
    if m.id ∈ ids then mergeClient ids rest
    else m :: mergeClient (m.id :: ids) rest

/-- Merge of handle_sync_channel before sorting: all server messages (their
ids collected into message_ids), then the client messages whose id is not
yet present. -/
def codeMerge (server client : List Message) : List Message :=
  server ++ mergeClient (server.map (fun m => m.id)) client

/-- Lexicographic comparison of character lists by code point, exactly how
Python compares str values (a proper initial segment is smaller). -/
def listCharLe : List Char → List Char → Bool
  | [], _ => true
  | _ :: _, [] => false
  | a :: as, b :: bs =>
    if a.toNat < b.toNat then true
    else if b.toNat < a.toNat then false
    else listCharLe as bs

/-- Non-strict string comparison used on the timestamp keys. -/
def strLe (s t : String) : Bool :=
  listCharLe s.data t.data

/-- Key relation of merged_messages.sort(key=lambda x: x['timestamp']). -/
def tsLe (a b : Message) : Prop :=
  strLe a.timestamp b.timestamp = true

instance : DecidableRel tsLe := fun a b =>
  inferInstanceAs (Decidable (strLe a.timestamp b.timestamp = true))

instance : IsTotal Message tsLe := by
  constructor
  intro a b
  show listCharLe a.timestamp.data b.timestamp.data = true ∨
    listCharLe b.timestamp.data a.timestamp.data = true
  generalize a.timestamp.data = u
  generalize b.timestamp.data = v
  induction u generalizing v with
  | nil => left; rfl
  | cons x xs ih =>
    cases v with
    | nil => right; rfl
    | cons y ys =>
      simp only [listCharLe]
      rcases Nat.lt_trichotomy x.toNat y.toNat with h | h | h
      · left
        simp [h]
      · have h1 : ¬ x.toNat < y.toNat := by omega
        have h2 : ¬ y.toNat < x.toNat := by omega
        simpa [h1, h2] using ih ys
      · have h1 : ¬ x.toNat < y.toNat := by omega
        right
        simp [h, h1]

instance : IsTrans Message tsLe := by
  constructor
  intro a b c
  show listCharLe a.timestamp.data b.timestamp.data = true →
    listCharLe b.timestamp.data c.timestamp.data = true →
    listCharLe a.timestamp.data c.timestamp.data = true
  generalize a.timestamp.data = u
  generalize b.timestamp.data = v
  generalize c.timestamp.data = w
  induction u generalizing v w with
  | nil => intro _ _; rfl
  | cons x xs ih =>
    intro hab hbc
    cases v with
    | nil => simp [listCharLe] at hab
    | cons y ys =>
      cases w with
      | nil => simp [listCharLe] at hbc
      | cons z zs =>
        simp only [listCharLe] at hab hbc ⊢
        rcases Nat.lt_trichotomy x.toNat y.toNat with h1 | h1 | h1
        · rcases Nat.lt_trichotomy y.toNat z.toNat with h2 | h2 | h2
          · simp [show x.toNat < z.toNat by omega]
          · simp [show x.toNat < z.toNat by omega]
          · simp [show ¬ y.toNat < z.toNat by omega, h2] at hbc
        · rcases Nat.lt_trichotomy y.toNat z.toNat with h2 | h2 | h2
          · simp [show x.toNat < z.toNat by omega]
          · rw [if_neg (show ¬ x.toNat < z.toNat by omega),
              if_neg (show ¬ z.toNat < x.toNat by omega)]
            rw [if_neg (show ¬ x.toNat < y.toNat by omega),
              if_neg (show ¬ y.toNat < x.toNat by omega)] at hab
            rw [if_neg (show ¬ y.toNat < z.toNat by omega),
              if_neg (show ¬ z.toNat < y.toNat by omega)] at hbc
            exact ih ys zs hab hbc
          · simp [show ¬ y.toNat < z.toNat by omega, h2] at hbc
        · simp [show ¬ x.toNat < y.toNat by omega, h1] at hab

/-- Python list.sort is a stable sort by the key; insertion sort on the
non-strict key relation is exactly that stable sort. -/
def sortByTimestamp (l : List Message) : List Message :=
  List.insertionSort tsLe l

/-- Optional fields of the channel_data dictionary of a sync_channel
request (a missing field means the corresponding key is absent). -/
structure ChannelData where
  messages : Option (List Message)
  access_control : Option AccessControl
  deriving Repr

/-- Request payload of sync_channel. -/
structure SyncChannelRequest where
  channel_id : String
  channel_data : ChannelData
  username : String
  deriving Repr

/-- Tracker.handle_sync_channel: only the owner of an existing channel may
sync; the merged message list (server copies first, then unseen client
ids) is sorted by timestamp and replaces the log; a supplied
access_control replaces the stored one verbatim. -/
def handle_sync_channel (st : Store) (req : SyncChannelRequest) : Resp × Store :=
  match dictGet st.channels req.channel_id with
  | some ch =>
    if ch.owner = req.username then
      let ch1 :=
        match req.channel_data.messages with
        | some client => { ch with messages := sortByTimestamp (codeMerge ch.messages client) }
        | none => ch
      let ch2 :=
        match req.channel_data.access_control with
        | some ac => { ch1 with access_control := ac }
        | none => ch1
      (Resp.syncOk req.channel_id ch2 "Channel synchronized successfully",
       { st with channels := dictInsert req.channel_id ch2 st.channels })
    else
      (Resp.err "Channel not found or you are not the owner", st)
  | none => (Resp.err "Channel not found or you are not the owner", st)

/-- One pass of Tracker.cleanup_inactive_peers under the lock: collect the
ids of the peers not seen for more than 300 seconds, then delete each of
them from the dictionary. -/
def cleanup_inactive_peers (now : Int) (peers : List (String × PeerInfo)) :
    List (String × PeerInfo) :=
  let inactive := (peers.filter (fun p => decide (300 < now - p.2.last_seen))).map (fun p => p.1)
  inactive.foldl (fun ps k => dictErase k ps) peers

/-- Spec-side merge, written from the specification's words: the union of
server-side and incoming messages deduplicated by id with the first
occurrence winning.  It is compared with codeMerge, which never
deduplicates inside the server list. -/
def dedupById (seen : List Nat) : List Message → List Message
  | [] => []
  | m :: rest =>
    if m.id ∈ seen then dedupById seen rest
    else m :: dedupById (m.id :: seen) rest

/-- Spec-side description of the merged log: deduplicate the concatenation
by id (server copies first, so they win), then sort stably by timestamp. -/
def specMergedLog (server incoming : List Message) : List Message :=
  sortByTimestamp (dedupById [] (server ++ incoming))

/-!
Model of json.loads acceptance, used by the framing claims: the client in
tracker_protocol._send_request keeps appending received chunks until the
accumulated bytes parse as JSON, so whether a byte string is one complete
JSON document is the whole framing decision.  The recogniser below follows
the JSON grammar as Python's json module accepts it (including NaN and
Infinity), threading explicit fuel for the nested values.
-/

/-- Opening curly bracket character. -/
def lbrace : Char := Char.ofNat 123

/-- Closing curly bracket character. -/
def rbrace : Char := Char.ofNat 125

/-- Whitespace accepted between JSON tokens. -/
def isJsonWs (c : Char) : Bool :=
  c = ' ' || c = '\t' || c = '\n' || c = '\r'

/-- Drop leading JSON whitespace. -/
def skipWs : List Char → List Char
  | [] => []
  | c :: rest => if isJsonWs c then skipWs rest else c :: rest

/-- Split off a run of leading decimal digits. -/
def spanDigits : List Char → List Char × List Char
  | [] => ([], [])
  | c :: rest =>
    if c.isDigit then
      let p := spanDigits rest
      (c :: p.1, p.2)
    else ([], c :: rest)

/-- Match an expected literal character sequence. -/
def expectChars : List Char → List Char → Option (List Char)
  | [], cs => some cs
  | _ :: _, [] => none
  | e :: es, c :: cs => if c = e then expectChars es cs else none

/-- Integer part of a JSON number: 0, or a nonzero digit followed by
digits. -/
def parseIntPart : List Char → Option (List Char)
  | [] => none
  | c :: rest =>
    if c = '0' then some rest
    else if c.isDigit then some (spanDigits rest).2
    else none

/-- Optional fraction part: a dot must be followed by at least one digit. -/
def parseFrac : List Char → Option (List Char)
  | [] => some []
  | c :: rest =>
    if c = '.' then
      match spanDigits rest with
      | ([], _) => none
      | (_ :: _, r) => some r
    else some (c :: rest)

/-- Optional exponent part: e or E, an optional sign, then digits. -/
def parseExp : List Char → Option (List Char)
  | [] => some []
  | c :: rest =>
    if c = 'e' || c = 'E' then
      let rest2 :=
        match rest with
        | s :: r2 => if s = '+' || s = '-' then r2 else rest
        | [] => rest
      match spanDigits rest2 with
      | ([], _) => none
      | (_ :: _, r) => some r
    else some (c :: rest)

/-- Numeric literal as json.loads accepts it, including the Infinity and
NaN extensions Python enables by default. -/
def parseNumber (cs : List Char) : Option (List Char) :=
  match cs with
  | '-' :: 'I' :: rest => expectChars ['n', 'f', 'i', 'n', 'i', 't', 'y'] rest
  | 'I' :: rest => expectChars ['n', 'f', 'i', 'n', 'i', 't', 'y'] rest
  | 'N' :: rest => expectChars ['a', 'N'] rest
  | '-' :: rest =>
    match parseIntPart rest with
    | none => none
    | some r1 =>
      match parseFrac r1 with
      | none => none
      | some r2 => parseExp r2
  | _ =>
    match parseIntPart cs with
    | none => none
    | some r1 =>
      match parseFrac r1 with
      | none => none
      | some r2 => parseExp r2

/-- Hexadecimal digit test used for unicode escapes. -/
def isHexDigitChar (c : Char) : Bool :=
  c.isDigit || (97 ≤ c.val && c.val ≤ 102) || (65 ≤ c.val && c.val ≤ 70)

/-- Body of a JSON string literal after the opening quote. -/
def parseStringTail : List Char → Option (List Char)
  | [] => none
  | '"' :: rest => some rest
  | '\\' :: 'u' :: a :: b :: c :: d :: rest =>
    if isHexDigitChar a && isHexDigitChar b && isHexDigitChar c && isHexDigitChar d then
      parseStringTail rest
    else none
  | '\\' :: e :: rest =>
    if e = '"' || e = '\\' || e = '/' || e = 'b' || e = 'f' || e = 'n' || e = 'r' || e = 't' then
      parseStringTail rest
    else none
  | ['\\'] => none
  | c :: rest => if c.val < 32 then none else parseStringTail rest

mutual

/-- One JSON value; returns the unconsumed remainder on success. -/
def parseValue : Nat → List Char → Option (List Char)
  | 0, _ => none
  | f + 1, cs =>
    match skipWs cs with
    | [] => none
    | c :: rest =>
      if c = lbrace then
        match skipWs rest with
        | [] => none
        | c2 :: r3 => if c2 = rbrace then some r3 else parseMembers f (c2 :: r3)
      else if c = '[' then
        match skipWs rest with
        | [] => none
        | c2 :: r3 => if c2 = ']' then some r3 else parseItems f (c2 :: r3)
      else if c = '"' then parseStringTail rest
      else if c = 't' then expectChars ['r', 'u', 'e'] rest
      else if c = 'f' then expectChars ['a', 'l', 's', 'e'] rest
      else if c = 'n' then expectChars ['u', 'l', 'l'] rest
      else if c = '-' || c.isDigit || c = 'I' || c = 'N' then parseNumber (c :: rest)
      else none

/-- Members of a JSON object after the opening bracket, first key next. -/
def parseMembers : Nat → List Char → Option (List Char)
  | 0, _ => none
  | f + 1, cs =>
    match skipWs cs with
    | [] => none
    | c :: rest =>
      if c = '"' then
        match parseStringTail rest with
        | none => none
        | some r2 =>
          match skipWs r2 with
          | [] => none
          | c2 :: r3 =>
            if c2 = ':' then
              match parseValue f r3 with
              | none => none
              | some r4 =>
                match skipWs r4 with
                | [] => none
                | c3 :: r5 =>
                  if c3 = ',' then parseMembers f r5
                  else if c3 = rbrace then some r5
                  else none
            else none
      else none

/-- Items of a JSON array after the opening bracket, first item next. -/
def parseItems : Nat → List Char → Option (List Char)
  | 0, _ => none
  | f + 1, cs =>
    match parseValue f cs with
    | none => none
    | some r1 =>
      match skipWs r1 with
      | [] => none
      | c :: r2 =>
        if c = ',' then parseItems f r2
        else if c = ']' then some r2
        else none

end

/-- Acceptance test the client applies to the accumulated bytes: the whole
buffer is exactly one JSON document (json.loads succeeds on it). -/
def isValidJson (s : String) : Bool :=
  match parseValue (s.length + 1) s.data with
  | some rest => (skipWs rest).isEmpty
  | none => false

/-- Read loop of TrackerProtocol._send_request: append each received chunk
to the buffer and stop at the first buffer that parses as valid JSON,
otherwise keep reading until the stream ends. -/
def recvUntilJson : List String → String → String
  | [], acc => acc
  | chunk :: rest, acc =>
    let acc2 := acc ++ chunk
    if isValidJson acc2 then acc2 else recvUntilJson rest acc2

/-- Canonical shape the message ids of every channel have when only
add_message ever ran: the ids are exactly 1, 2, ..., length in order. -/
def ChannelIdsCanonical (st : Store) : Prop :=
  ∀ p ∈ st.channels, p.2.messages.map (fun m => m.id) =
    List.range' 1 p.2.messages.length

/-- Application of a whole sequence of add_message requests, each with the
formatted time at which it ran. -/
def applyAdds : Store → List (AddMessageRequest × String) → Store
  | st, [] => st
  | st, op :: rest => applyAdds (handle_add_message st op.1 op.2).2 rest

/-- Failure condition of authentication: the username is absent from the
user table or the stored password differs. -/
def badCredentials (st : Store) (username password : String) : Bool :=
  match dictGet st.users username with
  | some u => u.password != password
  | none => true

/-!
Concrete inputs used by the witness and counterexample theorems.
-/

/-- Message of the worked sync example: id 1 at 10:00. -/
def exM1 : Message :=
  { id := 1, username := "alice", content := "first", timestamp := "2024-01-01 10:00:00" }

/-- Message of the worked sync example: id 2 at 09:00. -/
def exM2 : Message :=
  { id := 2, username := "bob", content := "second", timestamp := "2024-01-01 09:00:00" }

/-- Channel of the worked sync example holding only the id 1 message. -/
def exCh1 : Channel :=
  { name := "General", owner := "admin", messages := [exM1],
    access_control := { visitors_allowed := true } }

/-- Store of the worked sync example. -/
def exStore1 : Store :=
  { initialStore with channels := dictInsert "general" exCh1 initialStore.channels }

/-- Sync request of the worked example: incoming copies of id 1 and id 2. -/
def exSyncReq1 : SyncChannelRequest :=
  { channel_id := "general",
    channel_data := { messages := some [exM1, exM2], access_control := none },
    username := "admin" }

/-- The channel named general as seeded by Tracker.__init__. -/
def generalChannel : Channel :=
  { name := "General", owner := "admin", messages := [],
    access_control := { visitors_allowed := true } }

/-- Incoming message with id 1 used to break the id invariant. -/
def c2M1 : Message :=
  { id := 1, username := "alice", content := "one", timestamp := "2024-01-01 10:00:00" }

/-- Incoming message with id 3 used to break the id invariant. -/
def c2M3 : Message :=
  { id := 3, username := "alice", content := "three", timestamp := "2024-01-01 11:00:00" }

/-- Sync request bringing ids 1 and 3 into the empty general channel. -/
def c2SyncReq : SyncChannelRequest :=
  { channel_id := "general",
    channel_data := { messages := some [c2M1, c2M3], access_control := none },
    username := "admin" }

/-- Store after the id 1 and id 3 sync. -/
def c2St1 : Store := (handle_sync_channel initialStore c2SyncReq).2

/-- Ordinary add_message request following the sync. -/
def c2AddReq : AddMessageRequest :=
  { channel_id := "general", username := "admin", message := "hello", visitor_mode := false }

/-- Store after the sync and then one add_message: the new message got id
len+1 = 3, which is already taken. -/
def c2St2 : Store := (handle_add_message c2St1 c2AddReq "2024-01-01 12:00:00").2

/-- One ordinary add_message operation for the invariant witness. -/
def c2Ops : List (AddMessageRequest × String) :=
  [({ channel_id := "general", username := "admin", message := "hello",
      visitor_mode := false }, "2024-01-01 10:00:00")]

/-- Future-dated message a sync can legitimately bring in. -/
def c6MF : Message :=
  { id := 1, username := "alice", content := "future", timestamp := "2030-01-01 00:00:00" }

/-- Sync request bringing the future-dated message into general. -/
def c6SyncReq1 : SyncChannelRequest :=
  { channel_id := "general",
    channel_data := { messages := some [c6MF], access_control := none },
    username := "admin" }

/-- Store after the future-dated sync. -/
def c6St1 : Store := (handle_sync_channel initialStore c6SyncReq1).2

/-- Add request executed at a time before the synced timestamp. -/
def c6AddReq : AddMessageRequest :=
  { channel_id := "general", username := "admin", message := "now", visitor_mode := false }

/-- Store whose general log is not sorted by timestamp: the 2030 message
comes before the 2025 one. -/
def c6St2 : Store := (handle_add_message c6St1 c6AddReq "2025-01-01 00:00:00").2

/-- Current general log of that store. -/
def c6Log2 : List Message :=
  ((dictGet c6St2.channels "general").map (fun c => c.messages)).getD []

/-- Sync request whose incoming messages are exactly the channel's own
current log. -/
def c6SyncReq2 : SyncChannelRequest :=
  { channel_id := "general",
    channel_data := { messages := some c6Log2, access_control := none },
    username := "admin" }

/-- Store after syncing the channel with its own current log. -/
def c6St3 : Store := (handle_sync_channel c6St2 c6SyncReq2).2

/-- Peer registration request reused for the colliding calls. -/
def c3Req : SubmitInfoRequest :=
  { port := 5000, username := "user1", session_id := "", status := "online" }

/-- Directory after the first registration at integer second 100. -/
def c3St1 : Store := (handle_submit_info initialStore c3Req "127.0.0.1" 100).2

/-- Recently seen peer for the eviction witness. -/
def c8Fresh : PeerInfo :=
  { ip := "1.2.3.4", port := 5000, username := "fresh",
    session_id := "s1", status := "online", last_seen := 900 }

/-- Long-inactive peer for the eviction witness. -/
def c8Stale : PeerInfo :=
  { ip := "5.6.7.8", port := 5001, username := "stale",
    session_id := "s2", status := "online", last_seen := 100 }

/-- Two peers for the eviction witness: one fresh, one stale. -/
def c8Peers : List (String × PeerInfo) :=
  [("fresh_1.2.3.4_5000_900", c8Fresh), ("stale_5.6.7.8_5001_100", c8Stale)]

/-- Visitor-mode add_message request against the existing general channel. -/
def c4Req : AddMessageRequest :=
  { channel_id := "general", username := "guest", message := "hi", visitor_mode := true }

/-- Visitor-mode add_message request naming a channel that does not exist. -/
def c10Req : AddMessageRequest :=
  { channel_id := "nochannel", username := "guest", message := "hi", visitor_mode := true }

/-!
Helper lemmas about the dictionary model.
-/

theorem dictGet_dictInsert_self {α : Type} (k : String) (v : α) (d : List (String × α)) :
    dictGet (dictInsert k v d) k = some v := by
  induction d with
  | nil => simp [dictInsert, dictGet]
  | cons p rest ih =>
    obtain ⟨k0, v0⟩ := p
    by_cases h : k0 = k
    · simp [dictInsert, dictGet, h]
    · simp [dictInsert, dictGet, h, ih]

theorem dictGet_mem {α : Type} {d : List (String × α)} {k : String} {v : α}
    (h : dictGet d k = some v) : (k, v) ∈ d := by
  induction d with
  | nil => simp [dictGet] at h
  | cons p rest ih =>
    obtain ⟨k0, v0⟩ := p
    by_cases hk : k0 = k
    · simp [dictGet, hk] at h
      subst hk
      subst h
      exact List.mem_cons_self _ _
    · simp [dictGet, hk] at h
      exact List.mem_cons_of_mem _ (ih h)

theorem dictInsert_eq_self {α : Type} {d : List (String × α)} {k : String} {v : α}
    (h : dictGet d k = some v) : dictInsert k v d = d := by
  induction d with
  | nil => simp [dictGet] at h
  | cons p rest ih =>
    obtain ⟨k0, v0⟩ := p
    by_cases hk : k0 = k
    · simp [dictGet, hk] at h
      subst hk
      subst h
      simp [dictInsert]
    · simp [dictGet, hk] at h
      simp [dictInsert, hk, ih h]

theorem mem_dictInsert {α : Type} {p : String × α} {k : String} {v : α}
    {d : List (String × α)} (h : p ∈ dictInsert k v d) : p = (k, v) ∨ p ∈ d := by
  induction d with
  | nil => simpa [dictInsert] using h
  | cons q rest ih =>
    obtain ⟨k0, v0⟩ := q
    by_cases hk : k0 = k
    · simp [dictInsert, hk] at h
      rcases h with h | h
      · exact Or.inl h
      · exact Or.inr (List.mem_cons_of_mem _ h)
    · simp [dictInsert, hk] at h
      rcases h with h | h
      · exact Or.inr (by simp [h])
      · rcases ih h with h2 | h2
        · exact Or.inl h2
        · exact Or.inr (List.mem_cons_of_mem _ h2)

theorem dictErase_eq_filter {α : Type} {d : List (String × α)} {k : String}
    (hnd : (d.map (fun p => p.1)).Nodup) :
    dictErase k d = d.filter (fun p => p.1 != k) := by
  induction d with
  | nil => simp [dictErase]
  | cons p rest ih =>
    obtain ⟨k0, v0⟩ := p
    simp only [List.map_cons, List.nodup_cons] at hnd
    by_cases hk : k0 = k
    · subst hk
      have hall : ∀ q ∈ rest, (q.1 != k0) = true := by
        intro q hq
        have : q.1 ∈ rest.map (fun p => p.1) := List.mem_map_of_mem _ hq
        have : q.1 ≠ k0 := fun he => hnd.1 (he ▸ this)
        simpa using this
      simp [dictErase, List.filter_eq_self.mpr hall]
    · simp [dictErase, hk, ih hnd.2]

/-!
Helper lemmas about the sync merge.
-/

theorem mergeClient_eq_dedupById : ∀ (ids : List Nat) (l : List Message),
    mergeClient ids l = dedupById ids l := by
  intro ids l
  induction l generalizing ids with
  | nil => rfl
  | cons m rest ih =>
    by_cases h : m.id ∈ ids
    · simp [mergeClient, dedupById, h, ih]
    · simp [mergeClient, dedupById, h, ih]

theorem dedupById_congr : ∀ (l : List Message) (s1 s2 : List Nat),
    (∀ n, n ∈ s1 ↔ n ∈ s2) → dedupById s1 l = dedupById s2 l := by
  intro l
  induction l with
  | nil => intro s1 s2 _; rfl
  | cons m rest ih =>
    intro s1 s2 hiff
    by_cases h : m.id ∈ s1
    · rw [dedupById, if_pos h, dedupById, if_pos ((hiff m.id).1 h), ih s1 s2 hiff]
    · rw [dedupById, if_neg h, dedupById, if_neg (fun hc => h ((hiff m.id).2 hc))]
      have : ∀ n, n ∈ m.id :: s1 ↔ n ∈ m.id :: s2 := by
        intro n
        simp only [List.mem_cons]
        exact or_congr Iff.rfl (hiff n)
      rw [ih _ _ this]

theorem dedupById_append : ∀ (server client : List Message) (seen : List Nat),
    (server.map (fun m => m.id)).Nodup → (∀ m ∈ server, m.id ∉ seen) →
    dedupById seen (server ++ client) =
      server ++ dedupById (server.map (fun m => m.id) ++ seen) client := by
  intro server
  induction server with
  | nil => intro client seen _ _; rfl
  | cons x xs ih =>
    intro client seen hnd hdisj
    simp only [List.map_cons, List.nodup_cons] at hnd
    have hx : x.id ∉ seen := hdisj x (List.mem_cons_self _ _)
    rw [List.cons_append, dedupById, if_neg hx]
    have hdisj2 : ∀ m ∈ xs, m.id ∉ x.id :: seen := by
      intro m hm
      simp only [List.mem_cons]
      rintro (he | hs)
      · exact hnd.1 (he ▸ List.mem_map_of_mem _ hm)
      · exact hdisj m (List.mem_cons_of_mem _ hm) hs
    rw [ih client (x.id :: seen) hnd.2 hdisj2]
    have hsets : ∀ n, n ∈ xs.map (fun m => m.id) ++ x.id :: seen ↔
        n ∈ (x :: xs).map (fun m => m.id) ++ seen := by
      intro n
      simp only [List.mem_append, List.mem_cons, List.map_cons]
      tauto
    rw [dedupById_congr client _ _ hsets]
    rfl

theorem codeMerge_eq_dedup (server client : List Message)
    (h : (server.map (fun m => m.id)).Nodup) :
    codeMerge server client = dedupById [] (server ++ client) := by
  rw [dedupById_append server client [] h (by simp)]
  unfold codeMerge
  rw [mergeClient_eq_dedupById]
  have : ∀ n, n ∈ server.map (fun m => m.id) ++ ([] : List Nat) ↔
      n ∈ server.map (fun m => m.id) := by simp
  rw [dedupById_congr client _ _ (fun n => (this n).symm)]

theorem mergeClient_nil_of_subset : ∀ (ids : List Nat) (client : List Message),
    (∀ m ∈ client, m.id ∈ ids) → mergeClient ids client = [] := by
  intro ids client
  induction client generalizing ids with
  | nil => intro _; rfl
  | cons m rest ih =>
    intro hall
    rw [mergeClient, if_pos (hall m (List.mem_cons_self _ _))]
    exact ih ids (fun x hx => hall x (List.mem_cons_of_mem _ hx))

theorem mergeClient_ids_nodup : ∀ (ids : List Nat) (client : List Message),
    ((mergeClient ids client).map (fun m => m.id)).Nodup ∧
      ∀ m ∈ mergeClient ids client, m.id ∉ ids := by
  intro ids client
  induction client generalizing ids with
  | nil => exact ⟨List.nodup_nil, by simp [mergeClient]⟩
  | cons m rest ih =>
    by_cases h : m.id ∈ ids
    · rw [mergeClient, if_pos h]
      exact ih ids
    · rw [mergeClient, if_neg h]
      obtain ⟨hnd, hnotin⟩ := ih (m.id :: ids)
      constructor
      · simp only [List.map_cons, List.nodup_cons]
        refine ⟨fun hc => ?_, hnd⟩
        obtain ⟨q, hq, hqid⟩ := List.mem_map.1 hc
        exact hnotin q hq (hqid ▸ List.mem_cons_self _ _)
      · intro x hx
        rcases List.mem_cons.1 hx with he | hm
        · exact he ▸ h
        · exact fun hc => hnotin x hm (List.mem_cons_of_mem _ hc)

theorem codeMerge_ids_nodup (server client : List Message)
    (h : (server.map (fun m => m.id)).Nodup) :
    ((codeMerge server client).map (fun m => m.id)).Nodup := by
  unfold codeMerge
  rw [List.map_append, List.nodup_append]
  obtain ⟨hnd, hnotin⟩ := mergeClient_ids_nodup (server.map (fun m => m.id)) client
  refine ⟨h, hnd, ?_⟩
  intro n hn hn2
  obtain ⟨q, hq, hqid⟩ := List.mem_map.1 hn2
  exact hnotin q hq (hqid ▸ hn)

theorem sortByTimestamp_ids_nodup (l : List Message)
    (h : (l.map (fun m => m.id)).Nodup) :
    ((sortByTimestamp l).map (fun m => m.id)).Nodup := by
  have hp : (sortByTimestamp l).Perm l := List.perm_insertionSort tsLe l
  exact (hp.map (fun m => m.id)).symm.nodup h

/-!
Claim theorems.
-/

/-- C4: an add_message request with visitor_mode true against a channel
that exists is answered with the visitor error response and the whole
store, message log included, is returned exactly as it was. -/
theorem c4_visitor_add_rejected (st : Store) (req : AddMessageRequest) (now : String)
    (ch : Channel) (hget : dictGet st.channels req.channel_id = some ch)
    (hvm : req.visitor_mode = true) :
    handle_add_message st req now =
      (Resp.err "Visitors are not allowed to add messages", st) := by
  simp [handle_add_message, hget, hvm]

/-- Witness for C4 at the seeded store and the general channel. -/
theorem c4_visitor_add_rejected_witness :
    (dictGet initialStore.channels "general" = some generalChannel ∧
      c4Req.visitor_mode = true) ∧
    handle_add_message initialStore c4Req "2024-01-01 10:00:00" =
      (Resp.err "Visitors are not allowed to add messages", initialStore) :=
  ⟨⟨by decide, by decide⟩,
   c4_visitor_add_rejected initialStore c4Req "2024-01-01 10:00:00" generalChannel
     (by decide) (by decide)⟩

/-- C10: an add_message request naming an unknown channel is answered with
the channel-not-found error before the visitor check can run (so also when
visitor_mode is true) and the store is returned unchanged. -/
theorem c10_unknown_channel_checked_first (st : Store) (req : AddMessageRequest)
    (now : String) (hget : dictGet st.channels req.channel_id = none) :
    handle_add_message st req now = (Resp.err "Channel not found", st) := by
  simp [handle_add_message, hget]

/-- Witness for C10 with visitor_mode set to true. -/
theorem c10_unknown_channel_checked_first_witness :
    (dictGet initialStore.channels "nochannel" = none ∧ c10Req.visitor_mode = true) ∧
    handle_add_message initialStore c10Req "2024-01-01 10:00:00" =
      (Resp.err "Channel not found", initialStore) :=
  ⟨⟨by decide, by decide⟩,
   c10_unknown_channel_checked_first initialStore c10Req "2024-01-01 10:00:00" (by decide)⟩

/-- C7: an authenticate request for an unknown username or with a password
differing from the stored credential is answered with the authentication
error and the store, the user's stored status included, is returned
exactly as it was. -/
theorem c7_bad_credentials_no_state_change (st : Store) (username password : String)
    (t : Int) (h : badCredentials st username password = true) :
    handle_authenticate st username password t =
      (Resp.err "Invalid username or password", st) := by
  cases hget : dictGet st.users username with
  | none => simp [handle_authenticate, hget]
  | some u =>
    simp only [badCredentials, hget] at h
    have hne : u.password ≠ password := by simpa using h
    simp [handle_authenticate, hget, hne]

/-- Witness for C7: wrong password for the seeded admin user. -/
theorem c7_bad_credentials_no_state_change_witness :
    badCredentials initialStore "admin" "wrongpw" = true ∧
    handle_authenticate initialStore "admin" "wrongpw" 100 =
      (Resp.err "Invalid username or password", initialStore) :=
  ⟨by decide, c7_bad_credentials_no_state_change initialStore "admin" "wrongpw" 100 (by decide)⟩

/-- C3 failing run: two submit_info calls from the same peer within the
same integer second return the same peer id and the directory still holds
a single record afterwards: the first registration was silently
overwritten instead of the id being regenerated. -/
theorem c3_peer_id_collision :
    (handle_submit_info initialStore c3Req "127.0.0.1" 100).1 =
      Resp.submitOk "user1_127.0.0.1_5000_100" "Peer information submitted successfully" ∧
    (handle_submit_info c3St1 c3Req "127.0.0.1" 100).1 =
      Resp.submitOk "user1_127.0.0.1_5000_100" "Peer information submitted successfully" ∧
    c3St1.peers.length = 1 ∧
    (handle_submit_info c3St1 c3Req "127.0.0.1" 100).2.peers.length = 1 := by
  decide

/-- C9 failing run: two successful authenticate calls for the same user in
the same integer second issue the identical session token
session_admin_100: tokens are neither unique per session nor
unpredictable. -/
theorem c9_session_token_repeats :
    (handle_authenticate initialStore "admin" "admin123" 100).1 =
      Resp.authOk "admin" "session_admin_100" "Authentication successful" ∧
    (handle_authenticate (handle_authenticate initialStore "admin" "admin123" 100).2
        "admin" "admin123" 100).1 =
      Resp.authOk "admin" "session_admin_100" "Authentication successful" := by
  decide

/-- C5 failing run: the wire protocol has no length header, so the client
read loop stops at the first buffer that happens to parse as JSON: for the
single server message 123 delivered as chunks 12 and 3, the loop returns
after the first chunk with the truncated document 12, although the full
message 123 is itself one valid JSON document. -/
theorem c5_no_length_framing :
    ("12" ++ "3" : String) = "123" ∧
    isValidJson "123" = true ∧
    isValidJson "12" = true ∧
    recvUntilJson ["12", "3"] "" = "12" ∧
    ("12" : String) ≠ "123" := by
  decide

/-- C1: when the channel exists, the requester is its owner and the stored
log has pairwise-distinct ids, the log handle_sync_channel leaves behind is
exactly the spec-side merge - the union of server and incoming messages
deduplicated by id with the server copy winning, stably sorted by
timestamp ascending - and that log is sorted by the timestamp order. -/
theorem c1_sync_merge_is_dedup_sort (st : Store) (cid uname : String) (ch : Channel)
    (incoming : List Message) (ac : Option AccessControl)
    (hget : dictGet st.channels cid = some ch) (howner : ch.owner = uname)
    (hids : (ch.messages.map (fun m => m.id)).Nodup) :
    (dictGet (handle_sync_channel st
        { channel_id := cid,
          channel_data := { messages := some incoming, access_control := ac },
          username := uname }).2.channels cid).map (fun c => c.messages) =
      some (specMergedLog ch.messages incoming) ∧
    List.Sorted tsLe (specMergedLog ch.messages incoming) := by
  constructor
  · cases ac with
    | none =>
      simp only [handle_sync_channel, hget, howner, if_true]
      rw [dictGet_dictInsert_self]
      simp only [Option.map_some']
      rw [specMergedLog, codeMerge_eq_dedup _ _ hids]
    | some a =>
      simp only [handle_sync_channel, hget, howner, if_true]
      rw [dictGet_dictInsert_self]
      simp only [Option.map_some']
      rw [specMergedLog, codeMerge_eq_dedup _ _ hids]
  · exact List.sorted_insertionSort tsLe _

/-- Witness for C1: the worked example of the specification, where the
merge of server log id 1 at 10:00 with incoming ids 1 and 2 yields the log
id 2 then id 1 with no duplicate of id 1. -/
theorem c1_sync_merge_is_dedup_sort_witness :
    (dictGet exStore1.channels "general" = some exCh1 ∧ exCh1.owner = "admin" ∧
      (exCh1.messages.map (fun m => m.id)).Nodup) ∧
    ((dictGet (handle_sync_channel exStore1 exSyncReq1).2.channels "general").map
        (fun c => c.messages) = some (specMergedLog exCh1.messages [exM1, exM2]) ∧
      List.Sorted tsLe (specMergedLog exCh1.messages [exM1, exM2])) ∧
    specMergedLog exCh1.messages [exM1, exM2] = [exM2, exM1] :=
  ⟨⟨by decide, by decide, by decide⟩,
   c1_sync_merge_is_dedup_sort exStore1 "general" "admin" exCh1 [exM1, exM2] none
     (by decide) (by decide) (by decide),
   by decide⟩

/-- C6 counterexample: a reachable channel state on which syncing the
channel with its own current log changes the log.  A sync brings in a
future-dated message, an add_message then appends an earlier-dated one, so
the stored log has ids 1 then 2 with timestamps out of order; syncing that
very log into itself re-sorts it to ids 2 then 1. -/
theorem c6_sync_self_not_idempotent :
    (dictGet c6St2.channels "general").map (fun c => c.messages.map (fun m => m.id)) =
      some [1, 2] ∧
    c6SyncReq2.channel_data.messages = some c6Log2 ∧
    c6Log2 = ((dictGet c6St2.channels "general").map (fun c => c.messages)).getD [] ∧
    (dictGet c6St3.channels "general").map (fun c => c.messages.map (fun m => m.id)) =
      some [2, 1] := by
  decide

/-- C6 amended: syncing a channel with its own current log is a complete
no-op - same response shape, same store - whenever that log is already
sorted by timestamp, which is the state every sync itself leaves behind;
an unsorted log (reachable by adding a message after syncing in a
future-dated one) is instead replaced by its stable sort. -/
theorem c6_sync_self_idempotent_on_sorted (st : Store) (cid uname : String) (ch : Channel)
    (hget : dictGet st.channels cid = some ch) (howner : ch.owner = uname)
    (hsorted : List.Sorted tsLe ch.messages) :
    handle_sync_channel st
      { channel_id := cid,
        channel_data := { messages := some ch.messages, access_control := none },
        username := uname } =
      (Resp.syncOk cid ch "Channel synchronized successfully", st) := by
  have hmerge : codeMerge ch.messages ch.messages = ch.messages := by
    unfold codeMerge
    rw [mergeClient_nil_of_subset _ _ (fun m hm => List.mem_map_of_mem _ hm)]
    simp
  have hsort : sortByTimestamp (codeMerge ch.messages ch.messages) = ch.messages := by
    rw [hmerge]
    exact hsorted.insertionSort_eq
  subst howner
  simp only [handle_sync_channel, hget, if_true]
  rw [hsort]
  show (Resp.syncOk cid ch "Channel synchronized successfully",
    { st with channels := dictInsert cid ch st.channels }) = _
  rw [dictInsert_eq_self hget]

/-- Witness for the amended C6 at the seeded store: the empty general log
is sorted, and syncing it into itself returns the identical store. -/
theorem c6_sync_self_idempotent_on_sorted_witness :
    (dictGet initialStore.channels "general" = some generalChannel ∧
      generalChannel.owner = "admin" ∧ List.Sorted tsLe generalChannel.messages) ∧
    handle_sync_channel initialStore
      { channel_id := "general",
        channel_data := { messages := some generalChannel.messages, access_control := none },
        username := "admin" } =
      (Resp.syncOk "general" generalChannel "Channel synchronized successfully", initialStore) :=
  ⟨⟨by decide, by decide, by decide⟩,
   c6_sync_self_idempotent_on_sorted initialStore "general" "admin" generalChannel
     (by decide) (by decide) (by decide)⟩

/-- C2 counterexample: one sync_channel followed by one add_message breaks
id uniqueness.  Syncing ids 1 and 3 into the empty general channel and then
adding one ordinary message assigns it id len+1 = 3, leaving the reachable
log with ids 1, 3, 3 - neither unique nor strictly increasing. -/
theorem c2_sync_breaks_id_invariant :
    (dictGet c2St2.channels "general").map (fun c => c.messages.map (fun m => m.id)) =
      some [1, 3, 3] ∧
    ¬ ([1, 3, 3] : List Nat).Nodup := by
  decide

theorem add_preserves_canonical (st : Store) (req : AddMessageRequest) (now : String)
    (h : ChannelIdsCanonical st) : ChannelIdsCanonical (handle_add_message st req now).2 := by
  cases hget : dictGet st.channels req.channel_id with
  | none => simpa [handle_add_message, hget] using h
  | some ch =>
    by_cases hvm : req.visitor_mode
    · simpa [handle_add_message, hget, hvm] using h
    · intro p hp
      simp only [handle_add_message, hget, hvm, Bool.false_eq_true, if_false] at hp
      rcases mem_dictInsert hp with he | hmem
      · subst he
        have hch := h (req.channel_id, ch) (dictGet_mem hget)
        simp only at hch ⊢
        rw [List.map_append, hch]
        simp [List.range'_concat, Nat.add_comm]
      · exact h p hmem

theorem applyAdds_preserves_canonical (ops : List (AddMessageRequest × String)) :
    ∀ st : Store, ChannelIdsCanonical st → ChannelIdsCanonical (applyAdds st ops) := by
  induction ops with
  | nil => intro st h; exact h
  | cons op rest ih =>
    intro st h
    exact ih _ (add_preserves_canonical st op.1 op.2 h)

theorem canonical_pairwise_lt (st : Store) (h : ChannelIdsCanonical st) :
    ∀ p ∈ st.channels, List.Pairwise (fun a b : Message => a.id < b.id) p.2.messages := by
  intro p hp
  have hids := h p hp
  have hpw : List.Pairwise (fun a b : Nat => a < b) (p.2.messages.map (fun m => m.id)) := by
    rw [hids]
    exact List.pairwise_lt_range' 1 _
  exact List.pairwise_map.1 hpw

/-- C2 amended: the id invariant - unique, strictly increasing ids within
each channel - is preserved by every sequence of add_message operations
(the ids stay exactly 1..length), and a sync_channel merge keeps the
resulting ids pairwise distinct whenever the server log's ids were; but
interleaving syncs with adds does not preserve the invariant, since a sync
can import ids above the log length and reorder ids by timestamp. -/
theorem c2_add_only_invariant (st : Store) (ops : List (AddMessageRequest × String))
    (server client : List Message) (hst : ChannelIdsCanonical st)
    (hserver : (server.map (fun m => m.id)).Nodup) :
    (ChannelIdsCanonical (applyAdds st ops) ∧
      ∀ p ∈ (applyAdds st ops).channels,
        List.Pairwise (fun a b : Message => a.id < b.id) p.2.messages) ∧
    ((sortByTimestamp (codeMerge server client)).map (fun m => m.id)).Nodup := by
  have hc := applyAdds_preserves_canonical ops st hst
  exact ⟨⟨hc, canonical_pairwise_lt _ hc⟩,
    sortByTimestamp_ids_nodup _ (codeMerge_ids_nodup _ _ hserver)⟩

/-- Witness for the amended C2: the seeded store is canonical and stays so
under one add_message; the merge of an empty server log with one incoming
message keeps ids distinct. -/
theorem c2_add_only_invariant_witness :
    (ChannelIdsCanonical initialStore ∧
      ((([] : List Message).map (fun m => m.id)).Nodup)) ∧
    ((ChannelIdsCanonical (applyAdds initialStore c2Ops) ∧
      ∀ p ∈ (applyAdds initialStore c2Ops).channels,
        List.Pairwise (fun a b : Message => a.id < b.id) p.2.messages) ∧
    ((sortByTimestamp (codeMerge [] [c2M1])).map (fun m => m.id)).Nodup) :=
  ⟨⟨by unfold ChannelIdsCanonical; decide, by decide⟩,
   c2_add_only_invariant initialStore c2Ops [] [c2M1]
     (by unfold ChannelIdsCanonical; decide) (by decide)⟩

theorem key_inj {α : Type} {d : List (String × α)}
    (hnd : (d.map (fun p => p.1)).Nodup) {p q : String × α}
    (hp : p ∈ d) (hq : q ∈ d) (he : p.1 = q.1) : p = q := by
  induction d with
  | nil => simp at hp
  | cons r rest ih =>
    simp only [List.map_cons, List.nodup_cons] at hnd
    rcases List.mem_cons.1 hp with hp1 | hp1 <;> rcases List.mem_cons.1 hq with hq1 | hq1
    · rw [hp1, hq1]
    · exfalso
      apply hnd.1
      have hr : r.1 = q.1 := by rw [← hp1]; exact he
      rw [hr]
      exact List.mem_map_of_mem _ hq1
    · exfalso
      apply hnd.1
      have hr : r.1 = p.1 := by rw [← hq1]; exact he.symm
      rw [hr]
      exact List.mem_map_of_mem _ hp1
    · exact ih hnd.2 hp1 hq1

theorem foldl_dictErase_eq_filter {α : Type} :
    ∀ (ks : List String) (d : List (String × α)), (d.map (fun p => p.1)).Nodup →
      ks.foldl (fun ps k => dictErase k ps) d =
        d.filter (fun p => !decide (p.1 ∈ ks)) := by
  intro ks
  induction ks with
  | nil =>
    intro d _
    simp
  | cons k ks ih =>
    intro d hnd
    simp only [List.foldl_cons]
    rw [dictErase_eq_filter hnd]
    have hnd2 : (((d.filter (fun p => p.1 != k)).map (fun p => p.1))).Nodup :=
      ((List.filter_sublist d).map (fun p => p.1)).nodup hnd
    rw [ih _ hnd2, List.filter_filter]
    apply List.filter_congr
    intro p _
    by_cases h1 : p.1 = k <;> by_cases h2 : p.1 ∈ ks <;> simp [h1, h2]

theorem cleanup_eq_filter (now : Int) (peers : List (String × PeerInfo))
    (hnd : (peers.map (fun p => p.1)).Nodup) :
    cleanup_inactive_peers now peers =
      peers.filter (fun p => !decide (300 < now - p.2.last_seen)) := by
  unfold cleanup_inactive_peers
  rw [foldl_dictErase_eq_filter _ _ hnd]
  apply List.filter_congr
  intro p hp
  have hiff : p.1 ∈ (peers.filter
      (fun q => decide (300 < now - q.2.last_seen))).map (fun q => q.1) ↔
      300 < now - p.2.last_seen := by
    constructor
    · intro hmem
      obtain ⟨q, hq, hq1⟩ := List.mem_map.1 hmem
      obtain ⟨hq2, hq3⟩ := List.mem_filter.1 hq
      have := key_inj hnd hp hq2 hq1.symm
      rw [this]
      exact of_decide_eq_true hq3
    · intro hact
      exact List.mem_map_of_mem _ (List.mem_filter.2 ⟨hp, decide_eq_true hact⟩)
  rw [decide_eq_decide.2 hiff]

/-- C8: for any directory state with well-formed (distinct) peer keys, the
eviction pass with the hard-coded 300 second timeout removes a record
exactly when now minus its last_seen exceeds 300, retains every other
record, and running it again immediately with no intervening activity
removes nothing. -/
theorem c8_evict_iff_and_idempotent (now : Int) (peers : List (String × PeerInfo))
    (hnd : (peers.map (fun p => p.1)).Nodup) :
    (∀ k v, (k, v) ∈ cleanup_inactive_peers now peers ↔
      (k, v) ∈ peers ∧ ¬ (300 < now - v.last_seen)) ∧
    cleanup_inactive_peers now (cleanup_inactive_peers now peers) =
      cleanup_inactive_peers now peers := by
  have hfil := cleanup_eq_filter now peers hnd
  have hnd2 : ((cleanup_inactive_peers now peers).map (fun p => p.1)).Nodup := by
    rw [hfil]
    exact ((List.filter_sublist peers).map (fun p => p.1)).nodup hnd
  constructor
  · intro k v
    rw [hfil, List.mem_filter]
    simp
  · rw [cleanup_eq_filter now _ hnd2]
    conv_lhs => rw [hfil]
    conv_rhs => rw [hfil]
    rw [List.filter_filter]
    apply List.filter_congr
    intro p _
    rw [Bool.and_self]

/-- Witness for C8 at time 500 over one fresh peer (last seen 900) and one
stale peer (last seen 100): the stale one goes, the fresh one stays, and a
second pass removes nothing. -/
theorem c8_evict_iff_and_idempotent_witness :
    (c8Peers.map (fun p => p.1)).Nodup ∧
    ((∀ k v, (k, v) ∈ cleanup_inactive_peers 500 c8Peers ↔
      (k, v) ∈ c8Peers ∧ ¬ (300 < 500 - v.last_seen)) ∧
    cleanup_inactive_peers 500 (cleanup_inactive_peers 500 c8Peers) =
      cleanup_inactive_peers 500 c8Peers) ∧
    cleanup_inactive_peers 500 c8Peers = [("fresh_1.2.3.4_5000_900", c8Fresh)] :=
  ⟨by decide, c8_evict_iff_and_idempotent 500 c8Peers (by decide), by decide⟩

end P2PChat
